import Mathlib

/-!
Verification development for the ownables-cli build & packaging pipeline.

The JavaScript sources are shallowly embedded: a directory is a list of
(filename, content) pairs, filesystem side effects become explicit state
passing or an accumulated list of write operations, and the external
`sharp` image library is an oracle parameter (a function from a file name
to its metadata, and from a source image to the byte size of the derived
thumbnail).  Fallible code returns `Except String`.
-/

/-! Section: String helpers modelling the JavaScript string primitives used -/

/-- Character-level prefix test: `listHasPre needle hay` is true iff `needle`
is a prefix of `hay`.  Models the prefix part of `String.prototype.includes`
and `String.prototype.startsWith`. -/
def listHasPre : List Char → List Char → Bool
  | [], _ => true
  | _ :: _, [] => false
  | a :: as, b :: bs => a == b && listHasPre as bs

/-- Substring test: `listHasSub needle hay` is true iff `needle` occurs
contiguously inside `hay`.  Models `String.prototype.includes`. -/
def listHasSub : List Char → List Char → Bool
  | needle, [] => needle.isEmpty
  | needle, h :: t => listHasPre needle (h :: t) || listHasSub needle t

/-- JavaScript `hay.includes(needle)`. -/
def strIncludes (hay needle : String) : Bool :=
  listHasSub needle.toList hay.toList

/-- JavaScript `s.startsWith(pre)`. -/
def strStartsWith (s pre : String) : Bool :=
  listHasPre pre.toList s.toList

/-- JavaScript `s.endsWith(suf)`. -/
def strEndsWith (s suf : String) : Bool :=
  listHasPre suf.toList.reverse s.toList.reverse

/-- ASCII lower-casing of one character, as `String.prototype.toLowerCase`
behaves on the ASCII file names this tool manipulates. -/
def lowerChar (c : Char) : Char :=
  if 'A' ≤ c && c ≤ 'Z' then Char.ofNat (c.toNat + 32) else c

/-- JavaScript `s.toLowerCase()` (ASCII fragment). -/
def strLower (s : String) : String :=
  String.mk (s.toList.map lowerChar)

/-- Node's `path.extname`: the suffix of the file name from its last dot,
empty when there is no dot or the only dot starts the name (dotfile). -/
def extname (s : String) : String :=
  let r := s.toList.reverse
  let afterDot := r.takeWhile (fun c => c ≠ '.')
  match r.drop afterDot.length with
  | [] => ""
  | _ :: before =>
    if before.isEmpty then ("") else String.mk ('.' :: afterDot.reverse)

/-- Collapse every maximal run of whitespace into a single hyphen:
the `replace(/\s+/g, "-")` step of the project-name normalisation. -/
def collapseWs : List Char → List Char
  | [] => []
  | [c] => if c.isWhitespace then ['-'] else [c]
  | c :: d :: rest =>
    if c.isWhitespace then
      if d.isWhitespace then collapseWs (d :: rest)
      else '-' :: collapseWs (d :: rest)
    else c :: collapseWs (d :: rest)

/-- JavaScript `metadata.name.toLowerCase().replace(/\s+/g, "-")`, the
normalised project identifier used throughout the pipeline. -/
def normalizeName (s : String) : String :=
  String.mk (collapseWs (strLower s).toList)

/-! Section: Directory model -/

/-- A directory (or a zip archive): a list of (name, content) entries. -/
abbrev Dir := List (String × String)

/-- Write a file into a directory: overwrite the entry if the name is
present, append otherwise.  This is the effect of `fs.copyFile` /
`zip.file` on one target name. -/
def writeFile (d : Dir) (n c : String) : Dir :=
  if d.any (fun e => e.1 == n) then
    d.map (fun e => if e.1 == n then (n, c) else e)
  else d ++ [(n, c)]

/-- Read a file's content from a directory by name. -/
def lookupFile (d : Dir) (n : String) : Option String :=
  (d.find? (fun e => e.1 == n)).map (fun e => e.2)

namespace Stores

/-! Embedding of `src/lib/utils/stores.js` (schema cache) -/

/-- The seven schema documents that a complete bundle must contain
(`REQUIRED_SCHEMA_FILES`). -/
def REQUIRED_SCHEMA_FILES : List String :=
  ["instantiate_msg.json", "execute_msg.json", "query_msg.json",
   "external_event_msg.json", "info_response.json", "metadata.json",
   "config.json"]

/-- A directory holds a complete bundle iff every required document name is
present (`REQUIRED_SCHEMA_FILES.every((file) => files.includes(file))`). -/
def complete (d : Dir) : Bool :=
  REQUIRED_SCHEMA_FILES.all (fun n => d.any (fun e => e.1 == n))

/-- Copy every file whose name ends in `.json` from `src` into `dst`,
overwriting same-named entries — the shared copy loop of `storeSchema` and
`copyStoredSchema`. -/
def copyJsonFiles : Dir → Dir → Dir
  | [], dst => dst
  | e :: rest, dst =>
    copyJsonFiles rest (if strEndsWith e.1 (".json") then writeFile dst e.1 e.2 else dst)

/-- Filesystem state relevant to the schema cache: the global store
directory `~/.ownables/schema` and the project's `schema` directory,
`none` meaning the directory does not exist. -/
structure FsState where
  store : Option Dir
  projectSchema : Option Dir
deriving DecidableEq

/-- `getStoredSchema`: returns the store only when the store directory
exists and every required schema file name is present in it (I/O errors,
treated as a soft miss in the source, are not modelled). -/
def getStoredSchema (store : Option Dir) : Option Dir :=
  match store with
  | none => none
  | some files => if complete files then some files else none

/-- `storeSchema`: ensure the store directory exists, then copy every
`.json` file of the given schema directory into it. -/
def storeSchema (schemaDir : Dir) (store : Option Dir) : Option Dir :=
  some (copyJsonFiles schemaDir (store.getD []))

/-- `copyStoredSchema`: ensure the project's `schema` directory exists,
then copy every `.json` file of the store into it. -/
def copyStoredSchema (storeDir : Dir) (projectSchema : Option Dir) : Dir :=
  copyJsonFiles storeDir (projectSchema.getD [])

/-- Observable cache actions of `handleSchema`, used to state the
write-through / read-through policy. -/
inductive SchemaEvent
  | pushToCache
  | cacheLookup
  | copyFromCache
deriving DecidableEq, Repr

/-- `handleSchema`: if the project's schema directory exists (mere
`fs.pathExists`, contents not inspected) push it into the store and report
success; otherwise consult the store, materialise a hit into the project,
and report `false` (regeneration needed) on a miss. -/
def handleSchema (s : FsState) : Bool × FsState × List SchemaEvent :=
  match s.projectSchema with
  | some pdir =>
    (true, { s with store := storeSchema pdir s.store }, [.pushToCache])
  | none =>
    match getStoredSchema s.store with
    | some storeDir =>
      (true, { s with projectSchema := some (copyStoredSchema storeDir none) },
       [.cacheLookup, .copyFromCache])
    | none => (false, s, [.cacheLookup])

/-- The bundle a directory denotes: each required document name paired with
the content found under it (consumers read these seven documents by fixed
name). -/
def bundleOf (d : Dir) : List (String × Option String) :=
  REQUIRED_SCHEMA_FILES.map (fun n => (n, lookupFile d n))

end Stores

/-- Success test for `Except` results (`isOk e = true` iff `e` is `.ok`). -/
def isOk {ε α : Type} : Except ε α → Bool
  | .ok _ => true
  | .error _ => false

namespace OwnableTypes

/-! Embedding of the asset module (second half of `src/lib/utils/stores.js`,
the `ownableTypes` module required by `build.js`) -/

def MAX_IMAGE_SIZE : Nat := 50 * 1024 * 1024
def MAX_AUDIO_SIZE : Nat := 50 * 1024 * 1024
def MIN_DIM : Nat := 300
def MAX_DIM : Nat := 4096
def ALLOWED_AUDIO_FORMATS : List String := [".mp3", ".wav", ".ogg"]
def ALLOWED_IMAGE_FORMATS : List String := [".jpg", ".jpeg", ".png", ".webp"]

/-- Metadata `sharp` reports for an image file, plus its `fs.stat` byte
size.  The `sharp` probe itself is modelled as total. -/
structure FileMeta where
  width : Nat
  height : Nat
  size : Nat
deriving DecidableEq

/-- `validateImage`: format allow-list on the lower-cased extension, then
minimum dimensions, then maximum dimensions, then byte-size ceiling, in
the source's order. -/
def validateImage (name : String) (m : FileMeta) : Except String FileMeta :=
  if ALLOWED_IMAGE_FORMATS.contains (strLower (extname name)) = false then
    .error ("Unsupported image format. Allowed formats: .jpg, .jpeg, .png, .webp")
  else if m.width < MIN_DIM || m.height < MIN_DIM then
    .error ("Image dimensions too small. Minimum: 300x300")
  else if m.width > MAX_DIM || m.height > MAX_DIM then
    .error ("Image dimensions too large. Maximum: 4096x4096")
  else if m.size > MAX_IMAGE_SIZE then
    .error ("Image file too large. Maximum size: 50MB")
  else .ok m

/-- `validateAudio`: extension allow-list then byte-size ceiling. -/
def validateAudio (name : String) (size : Nat) : Except String Nat :=
  if ALLOWED_AUDIO_FORMATS.contains (strLower (extname name)) = false then
    .error ("Unsupported audio format. Allowed formats: .mp3, .wav, .ogg")
  else if size > MAX_AUDIO_SIZE then
    .error ("Audio file too large. Maximum size: 50MB")
  else .ok size

/-- One write the processors perform inside the output tree: directory
creation, a verbatim copy into `images/` or `audio/`, or the derived
`thumbnail.webp` (source image and resulting byte size). -/
inductive Write
  | ensureDir (sub : String)
  | imageOut (name : String)
  | audioOut (name : String)
  | thumbnailOut (source : String) (bytes : Nat)
deriving DecidableEq, Repr

/-- Result of the static processor. -/
structure StaticInfo where
  imageFile : String
deriving DecidableEq, Repr

/-- Result of the music processor. -/
structure MusicInfo where
  audioFile : String
  coverArt : String
  backdrop : String
deriving DecidableEq, Repr

/-- Cover-art tag: the lower-cased file name contains `cover` or `front`. -/
def coverTag (img : String) : Bool :=
  strIncludes (strLower img) "cover" || strIncludes (strLower img) "front"

/-- Backdrop tag: the lower-cased file name contains `backdrop` or `back`. -/
def backdropTag (img : String) : Bool :=
  strIncludes (strLower img) "backdrop" || strIncludes (strLower img) "back"

/-- `images.find(...)` for the cover art: first listing entry whose name
carries a cover tag. -/
def findCoverArt (images : List String) : Option String :=
  images.find? coverTag

/-- `images.find(...)` for the backdrop: first listing entry whose name
carries a backdrop tag. -/
def findBackdrop (images : List String) : Option String :=
  images.find? backdropTag

/-- `handleStaticOwnable`: normalise the project name, pick the first image
whose name starts with it (error naming the project when none does),
validate it, then copy it under `images/` and derive `thumbnail.webp`
whose byte size the `thumb` oracle reports — written with no size check.
The second component lists the writes performed inside the output tree. -/
def handleStaticOwnable (name : String) (images : List String)
    (meta : String → FileMeta) (thumb : String → Nat) :
    Except String StaticInfo × List Write :=
  let projectName := normalizeName name
  match images.find? (fun fi => strStartsWith fi projectName) with
  | none =>
    (.error ("No image file found for project " ++ projectName ++ " in assets/images"), [])
  | some imageFile =>
    match validateImage imageFile (meta imageFile) with
    | .error e => (.error e, [])
    | .ok _ =>
      (.ok ⟨imageFile⟩,
       [.ensureDir ("images"), .imageOut imageFile,
        .thumbnailOut imageFile (thumb imageFile)])

/-- The two asset directories of a music project; `none` means the
directory does not exist (`fs.pathExists` is false). -/
structure MusicAssets where
  audioDir : Option (List String)
  imagesDir : Option (List String)

/-- `handleMusicOwnable`: require both asset directories, pick the first
`.mp3`, require at least two images, pick cover and backdrop by filename
tag, validate everything, then copy audio and both images and derive the
thumbnail from the cover art (its byte size from the `thumb` oracle,
written with no size check). -/
def handleMusicOwnable (assets : MusicAssets)
    (meta : String → FileMeta) (audioSize : String → Nat) (thumb : String → Nat) :
    Except String MusicInfo × List Write :=
  match assets.audioDir with
  | none => (.error ("No audio directory found in assets"), [])
  | some audioFiles =>
    match assets.imagesDir with
    | none => (.error ("No images directory found in assets"), [])
    | some images =>
      match audioFiles.find? (fun fi => strEndsWith (strLower fi) ".mp3") with
      | none => (.error ("No music.mp3 file found in assets/audio directory"), [])
      | some musicFile =>
        if images.length < 2 then
          (.error ("At least two images are required in assets/images directory"), [])
        else
          match findCoverArt images with
          | none => (.error ("No cover art image found. Please name one image with cover or front in the filename"), [])
          | some coverArt =>
            match findBackdrop images with
            | none => (.error ("No backdrop image found. Please name one image with backdrop or back in the filename"), [])
            | some backdrop =>
              match validateAudio musicFile (audioSize musicFile) with
              | .error e => (.error e, [])
              | .ok _ =>
                match validateImage coverArt (meta coverArt) with
                | .error e => (.error e, [])
                | .ok _ =>
                  match validateImage backdrop (meta backdrop) with
                  | .error e => (.error e, [])
                  | .ok _ =>
                    (.ok ⟨musicFile, coverArt, backdrop⟩,
                     [.ensureDir ("audio"), .ensureDir ("images"),
                      .audioOut musicFile, .imageOut coverArt, .imageOut backdrop,
                      .thumbnailOut coverArt (thumb coverArt)])

end OwnableTypes

namespace BuildCmd

/-! Embedding of `src/lib/commands/build.js` (orchestration) and of the
archive assembly of the `createPackage` build variant -/

/-- `resizeToThumbnail`: produce the 50x50 quality-80 webp (its byte size
given by the caller) and fail when it exceeds the 256KB ceiling.  Defined
in every build variant of the repository but called from none of them. -/
def resizeToThumbnail (resizedLength : Nat) : Except String Nat :=
  if resizedLength > 256 * 1024 then
    .error ("Failed to create thumbnail: Thumbnail exceeds 256KB")
  else .ok resizedLength

/-- The project directory as the orchestrator observes it: structure
flags, the two asset listings (`none` when the directory is missing), and
the `type.txt` content (`none` when the file is missing).  `name` is the
package name from `Cargo.toml`. -/
structure Project where
  name : String
  hasCargoToml : Bool
  hasSrc : Bool
  hasAssets : Bool
  hasIndexHtml : Bool
  images : Option (List String)
  audio : Option (List String)
  ownableType : Option String

/-- `checkProjectStructure`: manifest, source dir, asset dir, index.html,
images dir, and a non-empty images listing, short-circuiting in the
source's order. -/
def checkProjectStructure (p : Project) : Except String Unit :=
  if p.hasCargoToml = false then
    .error ("No Cargo.toml found in the current directory. Please run this command in an Ownable project directory.")
  else if p.hasSrc = false then
    .error ("No src directory found. Please ensure this is a valid Ownable project.")
  else if p.hasAssets = false then
    .error ("No assets directory found. Please ensure this is a valid Ownable project.")
  else if p.hasIndexHtml = false then
    .error ("No index.html found in assets directory.")
  else
    match p.images with
    | none => .error ("No images directory found in assets directory.")
    | some l =>
      if l.isEmpty then .error ("No images found in assets/images directory.")
      else .ok ()

/-- Externally observable stages of one `build` invocation.  The three
toolchain stages (`cargoBuild`, `wasmBindgen`, `optimize`) are the
external compile steps; their own success is outside the model. -/
inductive BuildEvent
  | structureCheck
  | cargoBuild
  | wasmBindgen
  | optimize
  | assetProcessing
  | packaged
deriving DecidableEq, Repr

/-- The `build` command of `build.js`: environment and structure checks,
then `buildWasm` (cargo build + wasm-bindgen) and `optimizeWasm`, then
`createPackage`, which dispatches on `type.txt` to the asset processor.
The trace lists the stages that ran, in order; the environment
(`checkPrerequisites`) and the toolchain subprocesses are modelled as
succeeding. -/
def build (p : Project) (meta : String → OwnableTypes.FileMeta)
    (audioSize : String → Nat) (thumb : String → Nat) :
    Except String Unit × List BuildEvent :=
  match checkProjectStructure p with
  | .error e => (.error e, [.structureCheck])
  | .ok _ =>
    let evs := [BuildEvent.structureCheck, .cargoBuild, .wasmBindgen, .optimize]
    match p.ownableType with
    | none => (.error ("No type.txt found in project directory"), evs)
    | some t =>
      if t = "static-ownable" then
        match OwnableTypes.handleStaticOwnable p.name (p.images.getD []) meta thumb with
        | (.error e, _) => (.error e, evs ++ [.assetProcessing])
        | (.ok _, _) => (.ok (), evs ++ [.assetProcessing, .packaged])
      else if t = "music-ownable" then
        match OwnableTypes.handleMusicOwnable ⟨p.audio, p.images⟩ meta audioSize thumb with
        | (.error e, _) => (.error e, evs ++ [.assetProcessing])
        | (.ok _, _) => (.ok (), evs ++ [.assetProcessing, .packaged])
      else (.error ("Unknown ownable type: " ++ t), evs)

/-- Add a whole output tree (already flattened to relative paths) to a zip
archive, later entries overwriting same-named earlier ones — the
`addDirToZip` loop. -/
def addDirToZip (zip : Dir) (tree : Dir) : Dir :=
  tree.foldl (fun z e => writeFile z e.1 e.2) zip

/-- The archive assembly of the `createPackage` build variant: the
compiled artifact is entered under the generic name `ownable.wasm` and
again, byte for byte, under the bindings-relative name `ownable_bg.wasm`
(both read from the same `wasmPath`), the bindings under `ownable.js`,
and then every file of the staged output tree is added. -/
def createPackageZip (wasmContent jsContent : String) (outputTree : Dir) : Dir :=
  addDirToZip
    (writeFile
      (writeFile (writeFile [] ("ownable.wasm") wasmContent) ("ownable.js") jsContent)
      ("ownable_bg.wasm") wasmContent)
    outputTree

end BuildCmd

/-! Section: Directory lemmas -/

theorem find?_map_write_same (d : Dir) (n c : String)
    (h : d.any (fun e => e.1 == n) = true) :
    (d.map (fun e => if e.1 == n then (n, c) else e)).find? (fun e => e.1 == n)
      = some (n, c) := by
  induction d with
  | nil => simp at h
  | cons e rest ih =>
    rcases he : (e.1 == n) with _ | _
    · have h' : rest.any (fun e => e.1 == n) = true := by
        simp only [List.any_cons, Bool.or_eq_true] at h
        rcases h with h | h
        · rw [he] at h; exact absurd h (by simp)
        · exact h
      rw [List.map_cons, if_neg (by simp [he]),
        List.find?_cons_of_neg _ (by simp [he])]
      exact ih h'
    · rw [List.map_cons, if_pos he, List.find?_cons_of_pos _ (by simp)]

theorem lookupFile_writeFile_same (d : Dir) (n c : String) :
    lookupFile (writeFile d n c) n = some c := by
  unfold writeFile lookupFile
  by_cases hany : d.any (fun e => e.1 == n) = true
  · rw [if_pos hany, find?_map_write_same d n c hany]
    rfl
  · rw [if_neg hany]
    have hnone : d.find? (fun e => e.1 == n) = none := by
      rw [List.find?_eq_none]
      intro x hx hpx
      exact hany (List.any_eq_true.mpr ⟨x, hx, hpx⟩)
    simp [List.find?_append, hnone]

theorem find?_map_write_ne (d : Dir) (n m c : String) (h : m ≠ n) :
    (d.map (fun e => if e.1 == n then (n, c) else e)).find? (fun e => e.1 == m)
      = d.find? (fun e => e.1 == m) := by
  induction d with
  | nil => rfl
  | cons e rest ih =>
    rcases he : (e.1 == n) with _ | _
    · rw [List.map_cons, if_neg (by simp [he])]
      rcases hm : (e.1 == m) with _ | _
      · rw [List.find?_cons_of_neg _ (by simp [hm]),
          List.find?_cons_of_neg _ (by simp [hm])]
        exact ih
      · rw [List.find?_cons_of_pos _ (by simp [hm]),
          List.find?_cons_of_pos _ (by simp [hm])]
    · have he' : e.1 = n := eq_of_beq he
      have h1 : (n == m) = false := beq_eq_false_iff_ne.mpr (fun hnm => h hnm.symm)
      have h2 : (e.1 == m) = false := by rw [he']; exact h1
      rw [List.map_cons, if_pos he,
        List.find?_cons_of_neg _ (by simp [h1]),
        List.find?_cons_of_neg _ (by simp [h2])]
      exact ih

theorem lookupFile_writeFile_ne (d : Dir) (n m c : String) (h : m ≠ n) :
    lookupFile (writeFile d n c) m = lookupFile d m := by
  unfold writeFile lookupFile
  by_cases hany : d.any (fun e => e.1 == n) = true
  · rw [if_pos hany, find?_map_write_ne d n m c h]
  · rw [if_neg hany]
    have h1 : (n == m) = false := beq_eq_false_iff_ne.mpr (fun hnm => h hnm.symm)
    simp [List.find?_append, h1]

theorem any_name_eq_isSome_lookupFile (d : Dir) (n : String) :
    d.any (fun e => e.1 == n) = (lookupFile d n).isSome := by
  induction d with
  | nil => rfl
  | cons e rest ih =>
    by_cases he : (e.1 == n) = true
    · simp [lookupFile, he]
    · simpa [lookupFile, he] using ih

theorem lookupFile_copyJsonFiles_absent (src : Dir) (n : String)
    (h : ∀ e ∈ src, e.1 ≠ n) :
    ∀ dst : Dir, lookupFile (Stores.copyJsonFiles src dst) n = lookupFile dst n := by
  induction src with
  | nil => intro dst; rfl
  | cons e rest ih =>
    intro dst
    have hn : e.1 ≠ n := h e (by simp)
    have h' : ∀ x ∈ rest, x.1 ≠ n := fun x hx => h x (by simp [hx])
    show lookupFile (Stores.copyJsonFiles rest _) n = lookupFile dst n
    rw [ih h']
    rcases hj : strEndsWith e.1 (".json") with _ | _
    · rw [if_neg (by simp)]
    · rw [if_pos rfl, lookupFile_writeFile_ne dst e.1 n e.2 (fun hh => hn hh.symm)]

theorem lookupFile_copyJsonFiles_mem (src : Dir) (n c : String)
    (hnd : (src.map Prod.fst).Nodup)
    (hj : strEndsWith n (".json") = true)
    (h : lookupFile src n = some c) :
    ∀ dst : Dir, lookupFile (Stores.copyJsonFiles src dst) n = some c := by
  induction src with
  | nil => simp [lookupFile] at h
  | cons e rest ih =>
    intro dst
    rcases he : (e.1 == n) with _ | _
    · have h' : lookupFile rest n = some c := by
        unfold lookupFile at h ⊢
        rw [List.find?_cons_of_neg _ (by simp [he])] at h
        exact h
      have hnd' : (rest.map Prod.fst).Nodup := by
        rw [List.map_cons, List.nodup_cons] at hnd
        exact hnd.2
      show lookupFile (Stores.copyJsonFiles rest _) n = some c
      exact ih hnd' h' _
    · have he' : e.1 = n := eq_of_beq he
      have hc : e.2 = c := by
        unfold lookupFile at h
        rw [List.find?_cons_of_pos _ (by simp [he])] at h
        simpa using h
      have hrest : ∀ x ∈ rest, x.1 ≠ n := by
        intro x hx hxn
        rw [List.map_cons, List.nodup_cons] at hnd
        exact hnd.1 (he' ▸ hxn ▸ List.mem_map_of_mem Prod.fst hx)
      have hje : strEndsWith e.1 (".json") = true := by rw [he']; exact hj
      show lookupFile (Stores.copyJsonFiles rest _) n = some c
      rw [lookupFile_copyJsonFiles_absent rest n hrest, if_pos hje, he', hc,
        lookupFile_writeFile_same]

theorem required_names_end_json :
    ∀ n ∈ Stores.REQUIRED_SCHEMA_FILES, strEndsWith n (".json") = true := by
  decide

theorem complete_copyJsonFiles (src dst : Dir)
    (hnd : (src.map Prod.fst).Nodup) (h : Stores.complete src = true) :
    Stores.complete (Stores.copyJsonFiles src dst) = true := by
  rw [Stores.complete, List.all_eq_true] at h ⊢
  intro n hn
  have h1 := h n hn
  rw [any_name_eq_isSome_lookupFile] at h1
  obtain ⟨c, hc⟩ := Option.isSome_iff_exists.mp h1
  rw [any_name_eq_isSome_lookupFile,
    lookupFile_copyJsonFiles_mem src n c hnd (required_names_end_json n hn) hc dst, Option.isSome_some]

theorem bundleOf_copyJsonFiles (src dst : Dir)
    (hnd : (src.map Prod.fst).Nodup) (h : Stores.complete src = true) :
    Stores.bundleOf (Stores.copyJsonFiles src dst) = Stores.bundleOf src := by
  rw [Stores.bundleOf, Stores.bundleOf]
  refine List.map_congr_left ?_
  intro n hn
  rw [Stores.complete, List.all_eq_true] at h
  have h1 := h n hn
  rw [any_name_eq_isSome_lookupFile] at h1
  obtain ⟨c, hc⟩ := Option.isSome_iff_exists.mp h1
  rw [lookupFile_copyJsonFiles_mem src n c hnd (required_names_end_json n hn) hc dst, hc]

/-! Section: Claim theorems: schema cache -/

/-- C1 (counterexample).  The claim states that `handleSchema` pushes the
project's schema into the cache if and only if the project contains a
complete schema bundle.  In the code the test is a bare `fs.pathExists` on
the `schema` directory: a project whose schema directory exists but is
empty (no complete bundle) is still pushed into the cache and the cache is
never consulted. -/
theorem handleSchema_push_iff_complete_false :
    ¬ (((Stores.handleSchema ⟨none, some []⟩).2.2.contains .pushToCache = true) ↔
        (∃ d, (Stores.FsState.mk none (some [])).projectSchema = some d ∧
          Stores.complete d = true)) := by
  intro hiff
  obtain ⟨d, hd, hcomp⟩ := hiff.mp (by decide)
  obtain rfl : d = [] := by simpa using hd.symm
  simp [Stores.complete, Stores.REQUIRED_SCHEMA_FILES] at hcomp

/-- C1 (amended).  `handleSchema` pushes the project's schema directory
into the cache exactly when that directory exists (its completeness is not
inspected), and exactly otherwise it consults the cache; a hit is copied
into the project's schema directory, and the function reports that
regeneration is needed exactly when the project has no schema directory
and the cache lookup misses. -/
theorem handleSchema_policy (s : Stores.FsState) :
    ((Stores.handleSchema s).2.2.contains .pushToCache = s.projectSchema.isSome) ∧
    ((Stores.handleSchema s).2.2.contains .cacheLookup = s.projectSchema.isNone) ∧
    ((Stores.handleSchema s).2.2.contains .copyFromCache =
      (s.projectSchema.isNone && (Stores.getStoredSchema s.store).isSome)) ∧
    ((Stores.handleSchema s).2.1.projectSchema =
      (if s.projectSchema.isSome then s.projectSchema
       else (Stores.getStoredSchema s.store).map
         (fun d => Stores.copyStoredSchema d none))) ∧
    ((Stores.handleSchema s).1 =
      (s.projectSchema.isSome || (Stores.getStoredSchema s.store).isSome)) := by
  obtain ⟨st, ps⟩ := s
  cases ps with
  | some pdir => simp [Stores.handleSchema]
  | none =>
    cases hg : Stores.getStoredSchema st with
    | some d => simp [Stores.handleSchema, hg]
    | none => simp [Stores.handleSchema, hg]

/-- C2 (counterexample).  The claim states that an incomplete bundle is
never cached.  `storeSchema` copies every `.json` file of the source
directory into the store regardless of completeness: storing a directory
holding only `config.json` into an absent store leaves the cache holding a
required document while the cached bundle is incomplete. -/
theorem storeSchema_caches_incomplete :
    ¬ (∀ (src : Dir) (st : Option Dir),
        (Stores.REQUIRED_SCHEMA_FILES.any
          (fun n => ((Stores.storeSchema src st).getD []).any (fun e => e.1 == n))) = true →
        Stores.complete ((Stores.storeSchema src st).getD []) = true) := by
  intro h
  have := h [("config.json", "c")] none (by decide)
  exact absurd this (by decide)

/-- C2 (amended).  `getStoredSchema` returns a bundle exactly when the
store directory exists and every one of the seven required document names
is present in it; a found bundle is always name-complete (an incomplete
bundle is never considered found); and the result depends only on the
stored file names, never on document contents — no JSON parsing guards
the lookup. -/
theorem getStoredSchema_names_only (st : Option Dir) :
    ((Stores.getStoredSchema st).isSome =
      (st.isSome && Stores.complete (st.getD []))) ∧
    (∀ d, Stores.getStoredSchema st = some d →
      st = some d ∧ Stores.complete d = true) ∧
    (∀ d d' : Dir, d.map Prod.fst = d'.map Prod.fst →
      (Stores.getStoredSchema (some d)).isSome =
        (Stores.getStoredSchema (some d')).isSome) := by
  refine ⟨?_, ?_, ?_⟩
  · cases st with
    | none => rfl
    | some d =>
      rcases hc : Stores.complete d with _ | _
      · simp [Stores.getStoredSchema, hc]
      · simp [Stores.getStoredSchema, hc]
  · intro d hd
    cases st with
    | none => exact absurd hd (by simp [Stores.getStoredSchema])
    | some files =>
      rcases hc : Stores.complete files with _ | _
      · rw [Stores.getStoredSchema, if_neg (by simp [hc])] at hd
        exact absurd hd (by simp)
      · rw [Stores.getStoredSchema, if_pos hc] at hd
        obtain rfl : files = d := by simpa using hd
        exact ⟨rfl, hc⟩
  · intro d d' hmap
    have e1 : ∀ (dd : Dir) (n : String),
        (dd.map Prod.fst).any (fun x => x == n) = dd.any (fun e => e.1 == n) := by
      intro dd n
      induction dd with
      | nil => rfl
      | cons e rest ih => simp only [List.map_cons, List.any_cons, ih]
    have hcomp : Stores.complete d = Stores.complete d' := by
      rw [Stores.complete, Stores.complete]
      refine congrArg _ (funext fun n => ?_)
      rw [← e1 d n, ← e1 d' n, hmap]
    rcases hc : Stores.complete d' with _ | _
    · rw [Stores.getStoredSchema, Stores.getStoredSchema,
        if_neg (by simp [hcomp, hc]), if_neg (by simp [hc])]
    · rw [Stores.getStoredSchema, Stores.getStoredSchema,
        if_pos (by rw [hcomp]; exact hc), if_pos hc]
      rfl

/-- C2 (witness for the amended theorem's hypotheses): a store holding all
seven required names is found, and the found bundle is complete. -/
theorem getStoredSchema_names_only_witness :
    some (Stores.REQUIRED_SCHEMA_FILES.map (fun n => (n, "s"))) =
      some (Stores.REQUIRED_SCHEMA_FILES.map (fun n => (n, "s"))) ∧
      Stores.complete (Stores.REQUIRED_SCHEMA_FILES.map (fun n => (n, "s"))) = true :=
  (getStoredSchema_names_only
    (some (Stores.REQUIRED_SCHEMA_FILES.map (fun n => (n, "s"))))).2.1
    (Stores.REQUIRED_SCHEMA_FILES.map (fun n => (n, "s"))) (by decide)

/-- C3.  Round trip of the schema cache: storing a complete schema bundle
(under any prior cache state) and then looking the cache up finds a bundle
whose seven required documents are exactly those of the stored bundle.
Duplicate-free file names is a directory-listing invariant. -/
theorem store_lookup_roundtrip (src : Dir) (st : Option Dir)
    (hnd : (src.map Prod.fst).Nodup) (h : Stores.complete src = true) :
    ∃ d, Stores.getStoredSchema (Stores.storeSchema src st) = some d ∧
      Stores.bundleOf d = Stores.bundleOf src := by
  refine ⟨Stores.copyJsonFiles src (st.getD []), ?_, ?_⟩
  · rw [Stores.storeSchema, Stores.getStoredSchema,
      if_pos (complete_copyJsonFiles src (st.getD []) hnd h)]
  · exact bundleOf_copyJsonFiles src (st.getD []) hnd h

/-- C3 (witness): a concrete complete bundle stored over a cache already
holding an unrelated file round-trips. -/
theorem store_lookup_roundtrip_witness :
    ∃ d, Stores.getStoredSchema
        (Stores.storeSchema (Stores.REQUIRED_SCHEMA_FILES.map (fun n => (n, "s")))
          (some [("junk.json", "0")])) = some d ∧
      Stores.bundleOf d =
        Stores.bundleOf (Stores.REQUIRED_SCHEMA_FILES.map (fun n => (n, "s"))) :=
  store_lookup_roundtrip (Stores.REQUIRED_SCHEMA_FILES.map (fun n => (n, "s")))
    (some [("junk.json", "0")]) (by decide) (by decide)

/-! Section: Substring lemmas -/

theorem listHasPre_append (n b : List Char) : listHasPre n (n ++ b) = true := by
  induction n with
  | nil => rfl
  | cons c cs ih => simp [listHasPre, ih]

theorem listHasSub_of_pre (n hay : List Char) (h : listHasPre n hay = true) :
    listHasSub n hay = true := by
  cases hay with
  | nil =>
    cases n with
    | nil => rfl
    | cons c cs => simp [listHasPre] at h
  | cons hh t => simp [listHasSub, h]

theorem listHasSub_append_left (a t n : List Char) (h : listHasSub n t = true) :
    listHasSub n (a ++ t) = true := by
  induction a with
  | nil => exact h
  | cons c cs ih => simp [listHasSub, ih]

theorem strIncludes_middle (a pn b : String) : strIncludes (a ++ pn ++ b) pn = true := by
  show listHasSub pn.data (a ++ pn ++ b).data = true
  rw [String.data_append, String.data_append, List.append_assoc]
  exact listHasSub_append_left a.data (pn.data ++ b.data) pn.data
    (listHasSub_of_pre pn.data (pn.data ++ b.data) (listHasPre_append pn.data b.data))

/-! Section: Claim theorems: asset processors and validation -/

/-- C9.  With the image in an allowed format and within the byte-size
ceiling, `validateImage` succeeds exactly when both dimensions lie in the
inclusive range 300..4096: images exactly at the minimum or maximum pass,
and one pixel outside either bound fails. -/
theorem validateImage_boundary (name : String) (m : OwnableTypes.FileMeta)
    (hfmt : OwnableTypes.ALLOWED_IMAGE_FORMATS.contains (strLower (extname name)) = true)
    (hsize : m.size ≤ OwnableTypes.MAX_IMAGE_SIZE) :
    isOk (OwnableTypes.validateImage name m) = true ↔
      (OwnableTypes.MIN_DIM ≤ m.width ∧ m.width ≤ OwnableTypes.MAX_DIM ∧
       OwnableTypes.MIN_DIM ≤ m.height ∧ m.height ≤ OwnableTypes.MAX_DIM) := by
  unfold OwnableTypes.validateImage
  rw [if_neg (by intro hc; rw [hfmt] at hc; simp at hc)]
  simp only [OwnableTypes.MIN_DIM, OwnableTypes.MAX_DIM,
    OwnableTypes.MAX_IMAGE_SIZE] at *
  split_ifs with h1 h2 h3
  · simp only [Bool.or_eq_true, decide_eq_true_eq] at h1
    constructor
    · intro h; simp [isOk] at h
    · intro hb; omega
  · simp only [Bool.or_eq_true, decide_eq_true_eq] at h2
    constructor
    · intro h; simp [isOk] at h
    · intro hb; omega
  · omega
  · simp only [Bool.or_eq_true, decide_eq_true_eq] at h1 h2
    constructor
    · intro _; omega
    · intro _; simp [isOk]

/-- C9 (witness): a `.png` exactly at width 300 and height 4096 passes
validation. -/
theorem validateImage_boundary_witness :
    isOk (OwnableTypes.validateImage ("a.png") ⟨300, 4096, 100⟩) = true :=
  (validateImage_boundary ("a.png") ⟨300, 4096, 100⟩ (by decide) (by decide)).mpr
    (by decide)

/-- C5.  When no file in the images listing starts with the normalised
project identifier, `handleStaticOwnable` fails with the selection error
naming that identifier and performs no write at all to the output tree. -/
theorem handleStaticOwnable_no_match (name : String) (images : List String)
    (meta : String → OwnableTypes.FileMeta) (thumb : String → Nat)
    (h : images.find? (fun fi => strStartsWith fi (normalizeName name)) = none) :
    ∃ e, OwnableTypes.handleStaticOwnable name images meta thumb = (.error e, []) ∧
      strIncludes e (normalizeName name) = true := by
  refine ⟨"No image file found for project " ++ normalizeName name ++ " in assets/images",
    ?_, ?_⟩
  · simp only [OwnableTypes.handleStaticOwnable, h]
  · exact strIncludes_middle ("No image file found for project ") (normalizeName name)
      (" in assets/images")

/-- C5 (witness): a project named `sun icon` whose images listing holds
only `other.png` fails with the error naming `sun-icon`, writing
nothing. -/
theorem handleStaticOwnable_no_match_witness :
    ∃ e, OwnableTypes.handleStaticOwnable ("sun icon") ["other.png"]
        (fun _ => ⟨800, 800, 1000⟩) (fun _ => 1000) = (.error e, []) ∧
      strIncludes e (normalizeName ("sun icon")) = true :=
  handleStaticOwnable_no_match ("sun icon") ["other.png"]
    (fun _ => ⟨800, 800, 1000⟩) (fun _ => 1000) (by decide)

/-- C6.  The 256KB thumbnail ceiling is enforced only by the helper
`resizeToThumbnail`, which no build variant ever calls: when the derived
thumbnail of a valid image is 300KB, `handleStaticOwnable` still succeeds
and writes that oversized thumbnail into the output tree, while the
helper would have rejected exactly that size. -/
theorem thumbnail_ceiling_unenforced :
    isOk (OwnableTypes.handleStaticOwnable ("sun icon") ["sun-icon.png"]
      (fun _ => ⟨800, 800, 1000⟩) (fun _ => 300 * 1024)).1 = true ∧
    (OwnableTypes.handleStaticOwnable ("sun icon") ["sun-icon.png"]
      (fun _ => ⟨800, 800, 1000⟩) (fun _ => 300 * 1024)).2.contains
        (.thumbnailOut ("sun-icon.png") (300 * 1024)) = true ∧
    256 * 1024 < 300 * 1024 ∧
    isOk (BuildCmd.resizeToThumbnail (300 * 1024)) = false := by
  refine ⟨by decide, by decide, by decide, by decide⟩

theorem isOk_iff_exists {ε α : Type} (e : Except ε α) : isOk e = true ↔ ∃ v, e = .ok v := by
  cases e with
  | ok v => simp [isOk]
  | error er => simp [isOk]

/-- C10.  When the first image carrying a cover tag is the same file as the
first image carrying a backdrop tag, `handleMusicOwnable` selects that one
file for both roles and succeeds, copying it under `images/` once per role
and deriving the thumbnail from it: distinctness of cover and backdrop is
not required. -/
theorem handleMusicOwnable_shared_cover_backdrop
    (afs imgs : List String) (meta : String → OwnableTypes.FileMeta)
    (audioSize thumb : String → Nat) (mf f : String)
    (hm : afs.find? (fun fi => strEndsWith (strLower fi) (".mp3")) = some mf)
    (hlen : 2 ≤ imgs.length)
    (hc : OwnableTypes.findCoverArt imgs = some f)
    (hb : OwnableTypes.findBackdrop imgs = some f)
    (hva : isOk (OwnableTypes.validateAudio mf (audioSize mf)) = true)
    (hvi : isOk (OwnableTypes.validateImage f (meta f)) = true) :
    OwnableTypes.handleMusicOwnable ⟨some afs, some imgs⟩ meta audioSize thumb =
      (.ok ⟨mf, f, f⟩,
       [.ensureDir ("audio"), .ensureDir ("images"), .audioOut mf, .imageOut f,
        .imageOut f, .thumbnailOut f (thumb f)]) := by
  obtain ⟨va, hva'⟩ := (isOk_iff_exists _).mp hva
  obtain ⟨vi, hvi'⟩ := (isOk_iff_exists _).mp hvi
  have h2 : ¬ (imgs.length < 2) := by omega
  simp only [OwnableTypes.handleMusicOwnable, hm, hc, hb, hva', hvi', if_neg h2]

/-- C10 (witness): one file `cover-back.png` — matching both the cover tag
and the backdrop tag — alongside an unrelated `zimage.png` is packaged
under both references. -/
theorem handleMusicOwnable_shared_cover_backdrop_witness :
    OwnableTypes.handleMusicOwnable ⟨some ["song.mp3"], some ["cover-back.png", "zimage.png"]⟩
        (fun _ => ⟨800, 800, 1000⟩) (fun _ => 1000) (fun _ => 900) =
      (.ok ⟨"song.mp3", "cover-back.png", "cover-back.png"⟩,
       [.ensureDir ("audio"), .ensureDir ("images"), .audioOut ("song.mp3"),
        .imageOut ("cover-back.png"), .imageOut ("cover-back.png"),
        .thumbnailOut ("cover-back.png") 900]) :=
  handleMusicOwnable_shared_cover_backdrop ["song.mp3"] ["cover-back.png", "zimage.png"]
    (fun _ => ⟨800, 800, 1000⟩) (fun _ => 1000) (fun _ => 900)
    ("song.mp3") ("cover-back.png") (by decide) (by decide) (by decide) (by decide)
    (by decide) (by decide)

/-! Section: Claim theorems: build orchestration -/

theorem handleMusicOwnable_fails_of_short_images
    (a i : Option (List String)) (meta : String → OwnableTypes.FileMeta)
    (au th : String → Nat) (hl : (i.getD []).length < 2) :
    isOk (OwnableTypes.handleMusicOwnable ⟨a, i⟩ meta au th).1 = false := by
  cases a with
  | none => rfl
  | some afs =>
    cases i with
    | none => rfl
    | some imgs =>
      cases hf : afs.find? (fun fi => strEndsWith (strLower fi) (".mp3")) with
      | none => simp [OwnableTypes.handleMusicOwnable, hf, isOk]
      | some mf =>
        have h2 : imgs.length < 2 := by simpa using hl
        simp [OwnableTypes.handleMusicOwnable, hf, if_pos h2, isOk]

/-- C7 (counterexample).  The claim states that a Music project with fewer
than two images fails before any toolchain invocation.  In the code the
pre-toolchain structure check only requires a non-empty images directory,
so a one-image Music project passes it, cargo build and wasm-bindgen run,
and only the packaging-stage asset processor rejects the project. -/
theorem build_music_one_image_claim_false :
    ¬ (∀ (p : BuildCmd.Project) (meta : String → OwnableTypes.FileMeta)
        (au th : String → Nat),
        p.ownableType = some ("music-ownable") →
        (p.images.getD []).length < 2 →
        ((BuildCmd.build p meta au th).2.contains .cargoBuild = false ∧
         (BuildCmd.build p meta au th).2.contains .wasmBindgen = false)) := by
  intro h
  have := h ⟨"demo", true, true, true, true, some ["cover.png"], some ["m.mp3"],
      some ("music-ownable")⟩
    (fun _ => ⟨800, 800, 1000⟩) (fun _ => 1000) (fun _ => 1000) rfl (by decide)
  exact absurd this.1 (by decide)

/-- C7 (amended).  A Music project with fewer than two images whose
structure passes the pre-toolchain check does fail the build, but only
after the toolchain has been invoked: the cargo build stage is in the
trace of the failing run.  The cheap two-image check does not precede the
expensive compile steps. -/
theorem build_music_one_image_fails_after_toolchain
    (p : BuildCmd.Project) (meta : String → OwnableTypes.FileMeta)
    (au th : String → Nat)
    (hs : isOk (BuildCmd.checkProjectStructure p) = true)
    (ht : p.ownableType = some ("music-ownable"))
    (hl : (p.images.getD []).length < 2) :
    isOk (BuildCmd.build p meta au th).1 = false ∧
    (BuildCmd.build p meta au th).2.contains .cargoBuild = true := by
  obtain ⟨u, hu⟩ := (isOk_iff_exists _).mp hs
  have hmu := handleMusicOwnable_fails_of_short_images p.audio p.images meta au th hl
  simp only [BuildCmd.build, hu, ht]
  rw [if_neg (show ¬ (("music-ownable" : String) = "static-ownable") by decide),
    if_pos trivial]
  rcases hr : OwnableTypes.handleMusicOwnable ⟨p.audio, p.images⟩ meta au th with ⟨r, w⟩
  cases r with
  | error e => exact ⟨rfl, rfl⟩
  | ok v => rw [hr] at hmu; simp [isOk] at hmu

/-- C7 (witness for the amended theorem): a structurally valid Music
project with a single image fails only after the cargo build stage has
run. -/
theorem build_music_one_image_fails_after_toolchain_witness :
    isOk (BuildCmd.build
      ⟨"demo", true, true, true, true, some ["cover.png"], some ["m.mp3"],
        some ("music-ownable")⟩
      (fun _ => ⟨800, 800, 1000⟩) (fun _ => 1000) (fun _ => 1000)).1 = false ∧
    (BuildCmd.build
      ⟨"demo", true, true, true, true, some ["cover.png"], some ["m.mp3"],
        some ("music-ownable")⟩
      (fun _ => ⟨800, 800, 1000⟩) (fun _ => 1000) (fun _ => 1000)).2.contains
        .cargoBuild = true :=
  build_music_one_image_fails_after_toolchain
    ⟨"demo", true, true, true, true, some ["cover.png"], some ["m.mp3"],
      some ("music-ownable")⟩
    (fun _ => ⟨800, 800, 1000⟩) (fun _ => 1000) (fun _ => 1000)
    (by decide) rfl (by decide)

/-! Section: Claim theorems: package assembly -/

theorem addDirToZip_preserves (tree : Dir) (n : String)
    (h : ∀ e ∈ tree, e.1 ≠ n) :
    ∀ z : Dir, lookupFile (BuildCmd.addDirToZip z tree) n = lookupFile z n := by
  induction tree with
  | nil => intro z; rfl
  | cons e rest ih =>
    intro z
    show lookupFile (BuildCmd.addDirToZip (writeFile z e.1 e.2) rest) n = lookupFile z n
    rw [ih (fun x hx => h x (by simp [hx])) _,
      lookupFile_writeFile_ne z e.1 n e.2 (fun hh => h e (by simp) hh.symm)]

/-- C8.  The archive assembled by `createPackage` holds the compiled WASM
twice, under the generic name `ownable.wasm` and under the
bindings-relative name `ownable_bg.wasm`, with identical byte content
(both entries are read from the same `wasmPath`), provided the staged
output tree uses neither reserved name for its own files. -/
theorem createPackageZip_duplicate_wasm (w j : String) (tree : Dir)
    (h1 : ∀ e ∈ tree, e.1 ≠ "ownable.wasm")
    (h2 : ∀ e ∈ tree, e.1 ≠ "ownable_bg.wasm") :
    lookupFile (BuildCmd.createPackageZip w j tree) ("ownable.wasm") = some w ∧
    lookupFile (BuildCmd.createPackageZip w j tree) ("ownable_bg.wasm") = some w := by
  unfold BuildCmd.createPackageZip
  constructor
  · rw [addDirToZip_preserves tree _ h1,
      lookupFile_writeFile_ne _ _ _ _ (by decide),
      lookupFile_writeFile_ne _ _ _ _ (by decide),
      lookupFile_writeFile_same]
  · rw [addDirToZip_preserves tree _ h2, lookupFile_writeFile_same]

/-- C8 (witness): a concrete output tree yields an archive carrying the
same WASM bytes under both conventional names. -/
theorem createPackageZip_duplicate_wasm_witness :
    lookupFile (BuildCmd.createPackageZip ("WASMBYTES") ("JSBYTES")
      [("index.html", "h"), ("thumbnail.webp", "t")]) ("ownable.wasm")
        = some ("WASMBYTES") ∧
    lookupFile (BuildCmd.createPackageZip ("WASMBYTES") ("JSBYTES")
      [("index.html", "h"), ("thumbnail.webp", "t")]) ("ownable_bg.wasm")
        = some ("WASMBYTES") :=
  createPackageZip_duplicate_wasm ("WASMBYTES") ("JSBYTES")
    [("index.html", "h"), ("thumbnail.webp", "t")] (by decide) (by decide)

/-! Section: Claim theorems: cover and backdrop selection -/

theorem find?_eq_head?_filter {α : Type} (p : α → Bool) (l : List α) :
    l.find? p = (l.filter p).head? := by
  induction l with
  | nil => rfl
  | cons a t ih =>
    rcases hp : p a with _ | _
    · rw [List.find?_cons_of_neg _ (by simp [hp]), List.filter_cons_of_neg (by simp [hp])]
      exact ih
    · rw [List.find?_cons_of_pos _ hp, List.filter_cons_of_pos hp]
      rfl

theorem perm_find?_eq_of_countP_le_one {α : Type} (p : α → Bool)
    {l₁ l₂ : List α} (hp : l₁.Perm l₂) (hc : l₁.countP p ≤ 1) :
    l₁.find? p = l₂.find? p := by
  have hf : (l₁.filter p).Perm (l₂.filter p) := hp.filter p
  have hlen : (l₁.filter p).length ≤ 1 := by
    rw [← List.countP_eq_length_filter]; exact hc
  have heq : l₁.filter p = l₂.filter p := by
    cases hfp : l₁.filter p with
    | nil =>
      rw [hfp] at hf
      exact (hf.symm.eq_nil).symm
    | cons a t =>
      rw [hfp] at hf hlen
      have ht : t = [] := by
        cases t with
        | nil => rfl
        | cons b u => simp at hlen
      subst ht
      exact List.singleton_perm.mp hf
  rw [find?_eq_head?_filter, find?_eq_head?_filter, heq]

/-- C4 (counterexample).  The claim states that cover/backdrop selection
is invariant under permutations of the images listing.  Selection is
`Array.find` on a substring predicate, so with two files both carrying the
cover tag the first in listing order wins: swapping `a-cover.png` and
`b-cover.png` changes the selected cover art. -/
theorem music_cover_selection_order_dependent :
    ¬ (∀ (l₁ l₂ : List String), l₁.Perm l₂ →
        OwnableTypes.findCoverArt l₁ = OwnableTypes.findCoverArt l₂ ∧
        OwnableTypes.findBackdrop l₁ = OwnableTypes.findBackdrop l₂) := by
  intro h
  have hperm : (["a-cover.png", "b-cover.png", "x-back.png"] : List String).Perm
      ["b-cover.png", "a-cover.png", "x-back.png"] := List.Perm.swap _ _ _
  have := (h _ _ hperm).1
  exact absurd this (by decide)

/-- C4 (amended).  Selection takes the first listing entry matching the
case-insensitive substring tags; when at most one file matches the cover
tags and at most one matches the backdrop tags, the choice is invariant
under permutations of the listing (a pure function of the filename set),
and a file is only ever selected when it matches its tag — position is
never a fallback. -/
theorem music_selection_unique_match (l₁ l₂ : List String) (hp : l₁.Perm l₂)
    (hc : l₁.countP OwnableTypes.coverTag ≤ 1)
    (hb : l₁.countP OwnableTypes.backdropTag ≤ 1) :
    (OwnableTypes.findCoverArt l₁ = OwnableTypes.findCoverArt l₂ ∧
     OwnableTypes.findBackdrop l₁ = OwnableTypes.findBackdrop l₂) ∧
    (∀ f, OwnableTypes.findCoverArt l₁ = some f → OwnableTypes.coverTag f = true) ∧
    (∀ f, OwnableTypes.findBackdrop l₁ = some f → OwnableTypes.backdropTag f = true) := by
  refine ⟨⟨perm_find?_eq_of_countP_le_one _ hp hc,
    perm_find?_eq_of_countP_le_one _ hp hb⟩, ?_, ?_⟩
  · intro f hf; exact List.find?_some hf
  · intro f hf; exact List.find?_some hf

/-- C4 (witness for the amended theorem): with exactly one cover-tagged
and one backdrop-tagged file, a swapped listing selects the same cover. -/
theorem music_selection_unique_match_witness :
    OwnableTypes.findCoverArt ["zcover.png", "wback.png"] =
      OwnableTypes.findCoverArt ["wback.png", "zcover.png"] ∧
    OwnableTypes.findBackdrop ["zcover.png", "wback.png"] =
      OwnableTypes.findBackdrop ["wback.png", "zcover.png"] :=
  (music_selection_unique_match ["zcover.png", "wback.png"] ["wback.png", "zcover.png"]
    (List.Perm.swap _ _ _) (by decide) (by decide)).1

section SanityChecks

example : extname ("a.jpg") = ".jpg" := by decide
example : extname ("archive.tar.gz") = ".gz" := by decide
example : extname ("noext") = "" := by decide
example : extname (".hidden") = "" := by decide
example : strLower ("My Cool NAME") = "my cool name" := by decide
example : normalizeName ("My  Cool NAME") = "my-cool-name" := by decide
example : strIncludes ("my-cover-art.png") "cover" = true := by decide
example : strIncludes ("my-art.png") "cover" = false := by decide
example : strStartsWith ("sun-icon.png") "sun" = true := by decide
example : strEndsWith ("SONG.MP3") ".mp3" = false := by decide
example : strEndsWith (strLower ("SONG.MP3")) ".mp3" = true := by decide
example : Stores.complete [] = false := by decide
example :
    Stores.complete (Stores.REQUIRED_SCHEMA_FILES.map (fun n => (n, "x"))) = true := by
  decide

example :
    OwnableTypes.findCoverArt ["a-cover.png", "b-cover.png", "x-back.png"] =
      some ("a-cover.png") := by decide

example :
    OwnableTypes.findCoverArt ["b-cover.png", "a-cover.png", "x-back.png"] =
      some ("b-cover.png") := by decide

example :
    OwnableTypes.findBackdrop ["cover-back.png", "zimage.png"] =
      some ("cover-back.png") := by decide

example :
    isOk (OwnableTypes.validateImage ("a.png") ⟨300, 4096, 100⟩) = true := by decide

example :
    isOk (OwnableTypes.validateImage ("a.png") ⟨299, 400, 100⟩) = false := by decide

example :
    (OwnableTypes.handleStaticOwnable ("sun icon") ["other.png"]
      (fun _ => ⟨800, 800, 1000⟩) (fun _ => 1000)).2 = [] := by decide

example :
    lookupFile (BuildCmd.createPackageZip ("W") ("J") [("index.html", "h")])
      ("ownable_bg.wasm") = some ("W") := by decide

end SanityChecks
